import Mathlib

/-!
Shallow embedding of the converter in `word_to_gitbook.py`
(class `WordToGitBookConverter`), together with proofs about the
claims on its TOC building, section segmentation, inline formatting,
image handling, filename generation and table transcoding.

Modelling conventions:
* Python `str.strip()` is embedded as `pyStrip` (drop whitespace from
  both ends of the character list).
* Machine integers do not occur; all counters are `Nat`.
* File writes are modelled as an ordered ledger of
  `(filename, content)` pairs; since the source opens files with mode
  `'w'` (truncate), the final content of a file is the last write to
  that name (`fileContent`).
* `dict` objects that are only ever read through `[]` / `in` are
  modelled as association lists looked up with latest-binding-wins
  semantics, which is observationally equivalent for lookups.
-/

namespace WordToGitbook

/-- Python `str.strip()` on a character list: drop whitespace from both ends. -/
def stripChars (l : List Char) : List Char :=
  ((l.dropWhile Char.isWhitespace).reverse.dropWhile Char.isWhitespace).reverse

/-- Python `str.strip()`. -/
def pyStrip (s : String) : String :=
  String.mk (stripChars s.data)

/-- Python `str.startswith`, evaluated on the character data. -/
def pyStartsWith (s p : String) : Bool :=
  p.data.isPrefixOf s.data

/-- Python slicing `s[:n]` (by code points). -/
def strTake (s : String) (n : Nat) : String :=
  String.mk (s.data.take n)

/-- `GitBookConfig` dataclass. -/
structure GitBookConfig where
  title : String
  description : String
  language : String
  max_toc_level : Nat
  output_dir : String
  assets_dir : String
deriving DecidableEq

/-- `TocItem` dataclass (the `children` field is never populated by the core). -/
structure TocItem where
  title : String
  filename : String
  level : Nat
deriving DecidableEq

/-- One text run of a paragraph, as exposed by the document reader:
its text, the three formatting flags, and the image references its XML
subtree contains.  `drawings` is the list of `w:drawing` elements (each
with the `r:embed` ids of its nested `a:blip`s), `bareBlips` the
`a:blip` ids not wrapped in any `w:drawing`, and `picts` the `w:pict`
elements (each with the `r:id`s of its `v:imagedata`s). -/
structure Run where
  text : String
  bold : Bool
  italic : Bool
  underline : Bool
  drawings : List (List String)
  bareBlips : List String
  picts : List (List String)
deriving DecidableEq

/-- A paragraph: its style name (`para.style.name`) and runs. -/
structure Paragraph where
  style : String
  runs : List Run
deriving DecidableEq

/-- `para.text`: concatenation of the run texts. -/
def Paragraph.text (p : Paragraph) : String :=
  String.join (p.runs.map Run.text)

/-- A table: rows of raw cell texts. -/
structure Table where
  rows : List (List String)
deriving DecidableEq

/-- One body-level node of the document (`CT_P` or `CT_Tbl`). -/
inductive BodyElement where
  | para (p : Paragraph)
  | table (t : Table)
deriving DecidableEq

/-- `doc.paragraphs`: the body-level paragraphs in document order. -/
def docParagraphs (body : List BodyElement) : List Paragraph :=
  body.filterMap (fun e => match e with
    | .para p => some p
    | .table _ => none)

/-- Value of a (non-empty) digit run, most significant first. -/
def digitsToNat (ds : List Char) : Nat :=
  ds.foldl (fun n c => n * 10 + (c.toNat - 48)) 0

/-- Attempt to match `Heading\s*(\d+)` at the start of `cs`. -/
def matchHeadingAt (cs : List Char) : Option Nat :=
  if ['H', 'e', 'a', 'd', 'i', 'n', 'g'].isPrefixOf cs then
    let rest := (cs.drop 7).dropWhile Char.isWhitespace
    let ds := rest.takeWhile Char.isDigit
    if ds = [] then none else some (digitsToNat ds)
  else none

/-- `re.search(r'Heading\s*(\d+)', s)`: first position where the pattern matches. -/
def searchHeadingNum : List Char → Option Nat
  | [] => none
  | c :: cs =>
    match matchHeadingAt (c :: cs) with
    | some n => some n
    | none => searchHeadingNum cs

/-- `_extract_heading_level`: the matched level, defaulting to 1. -/
def extract_heading_level (style_name : String) : Nat :=
  (searchHeadingNum style_name.data).getD 1

/-- Characters kept by `re.sub(r'[^\w\s一-鿿-]', '', title)`.
`\w` is modelled as ASCII alphanumerics plus underscore; the source's
Unicode `\w` additionally matches other scripts' letters, which for the
CJK inputs this tool targets is covered by the explicit ideographic
range kept here as in the source. -/
def keepChar (c : Char) : Bool :=
  c.isAlphanum || c = '_' || c.isWhitespace || c = '-' ||
    (0x4e00 ≤ c.toNat && c.toNat ≤ 0x9fff)

/-- `re.sub(r'[-\s]+', '-', s)`: each maximal run of hyphens/whitespace
becomes a single hyphen.  `inRun` records whether the previous kept
character closed such a run. -/
def collapseRuns (inRun : Bool) : List Char → List Char
  | [] => []
  | c :: cs =>
    if c = '-' || c.isWhitespace then
      if inRun then collapseRuns true cs else '-' :: collapseRuns true cs
    else c :: collapseRuns false cs

/-- Python `str.strip('-')`. -/
def stripHyphens (l : List Char) : List Char :=
  ((l.dropWhile (fun c => c = '-')).reverse.dropWhile (fun c => c = '-')).reverse

/-- The cleaned slug computed by `_generate_filename` before the
fallback/truncation steps. -/
def clean_title_of (title : String) : String :=
  String.mk (stripHyphens (collapseRuns false (title.data.filter keepChar)))

/-- `_generate_filename`: returns the filename and the updated
`current_chapter` counter.  The `level` parameter is unused, as in the
source. -/
def generate_filename (title : String) (_level : Nat) (current_chapter : Nat) :
    String × Nat :=
  let clean := clean_title_of title
  let p : String × Nat :=
    if clean = "" ∨ clean.length < 2 then
      ("chapter-" ++ toString current_chapter, current_chapter + 1)
    else (clean, current_chapter)
  let clean := if p.1.length > 50 then strTake p.1 50 else p.1
  (clean ++ ".md", p.2)

/-- Loop body of `_parse_document_structure`: state is
`(toc_items, current_chapter)`. -/
def parseStep (cfg : GitBookConfig) (st : List TocItem × Nat) (p : Paragraph) :
    List TocItem × Nat :=
  if pyStartsWith p.style "Heading" then
    if extract_heading_level p.style ≤ cfg.max_toc_level then
      if pyStrip p.text ≠ "" then
        (st.1 ++ [{ title := pyStrip p.text
                  , filename :=
                      (generate_filename (pyStrip p.text)
                        (extract_heading_level p.style) st.2).1
                  , level := extract_heading_level p.style }],
          (generate_filename (pyStrip p.text)
            (extract_heading_level p.style) st.2).2)
      else st
    else st
  else st

/-- `_parse_document_structure`: scan `doc.paragraphs`, then fall back
to the placeholder entry when no heading qualified.  Returns the
`toc_items` list and the final `current_chapter` counter. -/
def parse_document_structure (cfg : GitBookConfig) (paras : List Paragraph) :
    List TocItem × Nat :=
  let r := paras.foldl (parseStep cfg) ([], 1)
  if r.1 = [] then ([{ title := "文档内容", filename := "content.md", level := 1 }], r.2)
  else r

/-- Loop body of `_process_paragraph_formatting` for one run: bold,
then italic, then underline wrapping. -/
def formatRun (r : Run) : String :=
  let text := r.text
  let text := if r.bold then "**" ++ text ++ "**" else text
  let text := if r.italic then "*" ++ text ++ "*" else text
  let text := if r.underline then "<u>" ++ text ++ "</u>" else text
  text

/-- `_process_paragraph_formatting`. -/
def process_paragraph_formatting (p : Paragraph) : String :=
  p.runs.foldl (fun acc r => acc ++ formatRun r) ""

/-- The Markdown image tag appended for one mapped image. -/
def imageTag (assets_dir filename : String) : String :=
  "\n\n![图片](" ++ assets_dir ++ "/" ++ filename ++ ")\n\n"

/-- The `image_map` built by `_extract_all_images`, read through
`in` / `[]` only. -/
abbrev ImageMap := List (String × String)

/-- Dictionary lookup (latest binding wins). -/
def lookupMap (m : ImageMap) (k : String) : Option String :=
  (m.find? (fun kv => kv.1 = k)).map (fun kv => kv.2)

/-- Processing of one image relationship id inside
`_process_images_in_paragraph`: `if rId and rId in self.image_map and
rId not in processed_rIds`, append the tag and record the id.  State is
`(accumulated text, processed_rIds)`; `processed_rIds` keeps insertion
order, which only strengthens the Python `set`. -/
def blipStep (assets_dir : String) (m : ImageMap) (st : String × List String)
    (rId : String) : String × List String :=
  if rId ≠ "" then
    match lookupMap m rId with
    | some fn =>
      if rId ∈ st.2 then st
      else (st.1 ++ imageTag assets_dir fn, st.2 ++ [rId])
    | none => st
  else st

/-- Fold `blipStep` over the ids of one container element. -/
def blipFold (assets_dir : String) (m : ImageMap) (st : String × List String)
    (rIds : List String) : String × List String :=
  rIds.foldl (blipStep assets_dir m) st

/-- Loop body of `_process_images_in_paragraph` for one run: the
`w:drawing` branch, the `elif` bare-`a:blip` branch (only taken when
the run has no `w:drawing` element, in which case every `a:blip` of the
run is a bare one), and the always-checked `w:pict` branch. -/
def runImagesStep (assets_dir : String) (m : ImageMap)
    (st : String × List String) (r : Run) : String × List String :=
  let st1 :=
    if r.drawings ≠ [] then r.drawings.foldl (blipFold assets_dir m) st
    else if r.bareBlips ≠ [] then blipFold assets_dir m st r.bareBlips
    else st
  if r.picts ≠ [] then r.picts.foldl (blipFold assets_dir m) st1 else st1

/-- `_process_images_in_paragraph`: returns the text with the tags of
the paragraph's de-duplicated mapped images appended. -/
def process_images_in_paragraph (assets_dir : String) (m : ImageMap)
    (p : Paragraph) (text : String) : String :=
  (p.runs.foldl (runImagesStep assets_dir m) (text, [])).1

/-- The ids for which `_process_images_in_paragraph` appends a tag, in
emission order (the final `processed_rIds`). -/
def emittedRIds (assets_dir : String) (m : ImageMap) (runs : List Run) :
    List String :=
  (runs.foldl (runImagesStep assets_dir m) ("", [])).2

/-- `'#' * level`. -/
def hashes (n : Nat) : String :=
  String.mk (List.replicate n '#')

/-- `_convert_paragraph_to_markdown`. -/
def convert_paragraph_to_markdown (cfg : GitBookConfig) (m : ImageMap)
    (p : Paragraph) : String :=
  if pyStrip p.text = "" then
    let image_text := process_images_in_paragraph cfg.assets_dir m p ""
    if pyStrip image_text ≠ "" then image_text ++ "\n" else "\n"
  else if pyStartsWith p.style "Heading" then
    hashes (extract_heading_level p.style) ++ " " ++ p.text ++ "\n\n"
  else
    process_images_in_paragraph cfg.assets_dir m p
      (process_paragraph_formatting p) ++ "\n\n"

/-- Python `str.replace('\n', '<br>')` (single-character pattern). -/
def replaceNewline (s : String) : String :=
  String.mk (s.data.foldr
    (fun c acc => if c = '\n' then '<' :: 'b' :: 'r' :: '>' :: acc else c :: acc)
    [])

/-- `_convert_table_to_markdown`. -/
def convert_table_to_markdown (t : Table) : String :=
  match t.rows with
  | [] => ""
  | header :: rest =>
    let header_cells := header.map pyStrip
    let line1 := "| " ++ String.intercalate " | " header_cells ++ " |"
    let line2 := "| " ++
      String.intercalate " | " (List.replicate header_cells.length "---") ++ " |"
    let dataLines := rest.map (fun row =>
      "| " ++
        String.intercalate " | " (row.map (fun c => replaceNewline (pyStrip c)))
        ++ " |")
    String.intercalate "\n" (line1 :: line2 :: dataLines) ++ "\n\n"

/-- `_convert_document_to_markdown`. -/
def convert_document_to_markdown (cfg : GitBookConfig) (m : ImageMap)
    (body : List BodyElement) : String :=
  String.join (body.map (fun e => match e with
    | .para p => convert_paragraph_to_markdown cfg m p
    | .table t => convert_table_to_markdown t))

/-- `_generate_single_markdown_file`: the single write it performs. -/
def generate_single_markdown_file (cfg : GitBookConfig) (m : ImageMap)
    (body : List BodyElement) : List (String × String) :=
  [("content.md", convert_document_to_markdown cfg m body)]

/-- Segmentation state of `_generate_chapter_files`:
`current_toc_item`, `current_content`, and the ledger of file writes
performed so far. -/
structure SegState where
  current : Option TocItem
  content : List String
  writes : List (String × String)
deriving DecidableEq

/-- The `title_to_toc` dictionary: latest binding wins. -/
def dictLookup (l : List (String × TocItem)) (k : String) : Option TocItem :=
  (l.reverse.find? (fun kv => kv.1 = k)).map (fun kv => kv.2)

/-- The guarded flush `if current_toc_item and current_content:
self._save_chapter_content_by_item(...)`, as the resulting write
ledger. -/
def flushIfOpen (st : SegState) : List (String × String) :=
  match st.current with
  | some item =>
    if st.content ≠ [] then st.writes ++ [(item.filename, String.join st.content)]
    else st.writes
  | none => st.writes

/-- Rendering of one body element through the paragraph / table
converters. -/
def renderElem (cfg : GitBookConfig) (m : ImageMap) (e : BodyElement) : String :=
  match e with
  | .para p => convert_paragraph_to_markdown cfg m p
  | .table t => convert_table_to_markdown t

/-- Loop body of `_generate_chapter_files`. -/
def chapterStep (cfg : GitBookConfig) (m : ImageMap)
    (t2t : List (String × TocItem)) (st : SegState) (e : BodyElement) : SegState :=
  match e with
  | .para p =>
    if pyStartsWith p.style "Heading" then
      if extract_heading_level p.style ≤ cfg.max_toc_level ∧ pyStrip p.text ≠ "" ∧
          (dictLookup t2t (pyStrip p.text)).isSome then
        { current := dictLookup t2t (pyStrip p.text)
        , content := ["# " ++ pyStrip p.text ++ "\n\n"]
        , writes := flushIfOpen st }
      else { st with content := st.content ++ [convert_paragraph_to_markdown cfg m p] }
    else { st with content := st.content ++ [convert_paragraph_to_markdown cfg m p] }
  | .table t => { st with content := st.content ++ [convert_table_to_markdown t] }

/-- `_generate_chapter_files`: the ordered ledger of content-file
writes it performs. -/
def generate_chapter_files (cfg : GitBookConfig) (m : ImageMap)
    (toc : List TocItem) (body : List BodyElement) : List (String × String) :=
  let t2t := toc.map (fun i => (i.title, i))
  flushIfOpen (body.foldl (chapterStep cfg m t2t) ⟨none, [], []⟩)

/-- `_generate_gitbook_files`. -/
def generate_gitbook_files (cfg : GitBookConfig) (m : ImageMap)
    (toc : List TocItem) (body : List BodyElement) : List (String × String) :=
  if toc = [] then generate_single_markdown_file cfg m body
  else generate_chapter_files cfg m toc body

/-- The content-file writes of one conversion after image extraction:
TOC pass over `doc.paragraphs`, then `_generate_gitbook_files`. -/
def pipelineWrites (cfg : GitBookConfig) (m : ImageMap)
    (body : List BodyElement) : List (String × String) :=
  generate_gitbook_files cfg m (parse_document_structure cfg (docParagraphs body)).1 body

/-- Final content of a file after a ledger of truncating writes: the
last write to that name. -/
def fileContent (writes : List (String × String)) (name : String) : Option String :=
  (writes.reverse.find? (fun w => w.1 = name)).map (fun w => w.2)

/-- `_generate_summary_md`: the SUMMARY.md text. -/
def generate_summary_md (toc : List TocItem) : String :=
  String.join ("# Summary\n\n" ::
    (if toc ≠ [] then
      toc.map (fun i =>
        String.mk (List.replicate (2 * (i.level - 1)) ' ') ++
          "* [" ++ i.title ++ "](" ++ i.filename ++ ")\n")
    else ["* [文档内容](content.md)\n"]))

/-- Result of `PIL.Image.open` on one binary part: the sniffed,
lowercased format name, or `none` when the bytes are unreadable. -/
structure ImageData where
  sniffed : Option String
deriving DecidableEq

/-- `_get_image_extension`. -/
def get_image_extension (d : ImageData) : String :=
  match d.sniffed with
  | some f => if f ∈ ["png", "jpg", "jpeg", "gif", "bmp"] then f else "png"
  | none => "png"

/-- One entry of `doc.part.related_parts`: the declared content type
and the outcome of the body of the per-image `try` block (reading
`.blob` and persisting the bytes).  `.error` models a decode or I/O
failure raised inside that block. -/
structure RelatedPart where
  content_type : String
  blob : Except String ImageData

/-- State of `_extract_all_images`: the `image_map` and the
`image_counter`. -/
structure ExtractState where
  image_map : ImageMap
  image_counter : Nat
deriving DecidableEq

/-- `f"{n:03d}"`. -/
def pad3 (n : Nat) : String :=
  let s := toString n
  if s.length < 3 then String.mk (List.replicate (3 - s.length) '0') ++ s else s

/-- Dictionary assignment, modelled with latest-binding-wins lookup. -/
def mapInsert (m : ImageMap) (k v : String) : ImageMap :=
  (k, v) :: m

/-- Loop body of `_extract_all_images` for one related part. -/
def extractStep (st : ExtractState) (rp : String × RelatedPart) : ExtractState :=
  if pyStartsWith rp.2.content_type "image/" then
    match rp.2.blob with
    | .ok d =>
      { image_map := mapInsert st.image_map rp.1
          ("image_" ++ pad3 st.image_counter ++ "." ++ get_image_extension d)
      , image_counter := st.image_counter + 1 }
    | .error _ => st
  else st

/-- `_extract_all_images` over the relationship map, starting from the
constructor state (`image_map = {}`, `image_counter = 1`). -/
def extract_all_images (parts : List (String × RelatedPart)) : ExtractState :=
  parts.foldl extractStep ⟨[], 1⟩

/-! Concrete fixtures used by the witnesses and counterexamples. -/

/-- A plain run with the given text and no formatting or images. -/
def mkRun (t : String) : Run :=
  ⟨t, false, false, false, [], [], []⟩

/-- A configuration with `max_toc_level = 3` (the tool's default). -/
def cfgA : GitBookConfig :=
  ⟨"t", "d", "zh-hans", 3, "out", "assets"⟩

/-- A configuration with `max_toc_level = 2`. -/
def cfgB : GitBookConfig :=
  ⟨"t", "d", "zh-hans", 2, "out", "assets"⟩

/-- A document with a single plain paragraph and no headings. -/
def doc1 : List BodyElement :=
  [.para ⟨"Normal", [mkRun "hello"]⟩]

/-- A document with two qualifying headings sharing the title `Notes`. -/
def doc2 : List BodyElement :=
  [.para ⟨"Heading 1", [mkRun "Notes"]⟩, .para ⟨"Normal", [mkRun "alpha"]⟩,
   .para ⟨"Heading 1", [mkRun "Notes"]⟩, .para ⟨"Normal", [mkRun "beta"]⟩]

/-- The `Intro` / `Setup` / `done` scenario document. -/
def doc3 : List BodyElement :=
  [.para ⟨"Heading 1", [mkRun "Intro"]⟩, .para ⟨"Heading 2", [mkRun "Setup"]⟩,
   .para ⟨"Normal", [mkRun "done"]⟩]

/-- An asset table holding two image relationship ids. -/
def m5 : ImageMap :=
  [("rId1", "image_001.png"), ("rId2", "image_002.png")]

/-- A run whose `w:drawing` wraps `rId1` while `rId2` appears as a bare
`a:blip` in the same run. -/
def run5 : Run :=
  ⟨"", false, false, false, [["rId1"]], ["rId2"], []⟩

/-- A bold-and-italic run with text `x`. -/
def run4 : Run :=
  ⟨"x", true, true, false, [], [], []⟩

/-- A healthy png part. -/
def goodPartA : RelatedPart := ⟨"image/png", Except.ok ⟨some "png"⟩⟩
/-- A healthy gif part. -/
def goodPartC : RelatedPart := ⟨"image/gif", Except.ok ⟨some "gif"⟩⟩
/-- An image part whose extraction body raises. -/
def badPartB : RelatedPart := ⟨"image/jpeg", Except.error "boom"⟩
/-- A non-image related part. -/
def nonImagePart : RelatedPart := ⟨"application/xml", Except.ok ⟨none⟩⟩
/-- A heading-styled paragraph whose text is whitespace only. -/
def p10 : Paragraph := ⟨"Heading 1", [mkRun "  "]⟩

/-- The paragraphs of the C8 witness document. -/
def parasW : List Paragraph :=
  [⟨"Heading 1", [mkRun "T1"]⟩, ⟨"Normal", [mkRun "x"]⟩]

/-- The duplicated `Notes` heading paragraph. -/
def pNotes : Paragraph := ⟨"Heading 1", [mkRun "Notes"]⟩

/-- The `alpha` body paragraph. -/
def pAlpha : Paragraph := ⟨"Normal", [mkRun "alpha"]⟩

/-- The `beta` body paragraph. -/
def pBeta : Paragraph := ⟨"Normal", [mkRun "beta"]⟩

/-- The TOC computed for `doc2`. -/
def tocN : List TocItem := (parse_document_structure cfgA (docParagraphs doc2)).1

/-- The merged `Notes` TOC entry. -/
def itemN : TocItem := ⟨"Notes", "Notes.md", 1⟩

/-- The `Setup` heading paragraph of `doc3`. -/
def pSetup : Paragraph := ⟨"Heading 2", [mkRun "Setup"]⟩

/-- The TOC computed for `doc3`. -/
def toc3 : List TocItem := (parse_document_structure cfgB (docParagraphs doc3)).1

/-- The `Setup` TOC entry of `doc3`. -/
def item3 : TocItem := ⟨"Setup", "Setup.md", 2⟩

/-- An asset table with a single pict-referenced id. -/
def mW : ImageMap := [("r1", "image_001.png")]

/-- A run referencing `r1` through a legacy `w:pict` element. -/
def runW : Run := ⟨"", false, false, false, [], [], [["r1"]]⟩

/-- Whether a body element is a heading that opens a new section during
segmentation: heading style, qualifying depth, non-empty stripped
title, and a `title_to_toc` hit — the condition sequence of
`_generate_chapter_files`. -/
def headingMatch (cfg : GitBookConfig) (t2t : List (String × TocItem)) :
    BodyElement → Bool
  | .para p =>
    pyStartsWith p.style "Heading" &&
      (decide (extract_heading_level p.style ≤ cfg.max_toc_level) &&
        (decide (pyStrip p.text ≠ "") && (dictLookup t2t (pyStrip p.text)).isSome))
  | .table _ => false

/-! Generic string and list helper lemmas. -/

/-- Strings with equal character data are equal. -/
theorem str_ext {a b : String} (h : a.data = b.data) : a = b := by
  cases a; cases b; exact congrArg String.mk h

/-- Character data of an appended string. -/
theorem str_data_append (a b : String) : (a ++ b).data = a.data ++ b.data := by
  cases a; cases b; rfl

theorem data_star1 : ("*" : String).data = ['*'] := rfl

theorem data_star2 : ("**" : String).data = ['*', '*'] := rfl

theorem data_star3 : ("***" : String).data = ['*', '*', '*'] := rfl

/-- Merging the bold and italic wrappers: `*`, `**…**`, `*` compose to
`***…***`. -/
theorem triple_star (t : String) :
    "*" ++ ("**" ++ t ++ "**") ++ "*" = "***" ++ t ++ "***" := by
  apply str_ext
  simp [str_data_append, data_star1, data_star2, data_star3]

/-- The head of a `dropWhile` result fails the predicate. -/
theorem dropWhile_head_false {α : Type} {p : α → Bool} :
    ∀ (l : List α) (c : α) (cs : List α), l.dropWhile p = c :: cs → p c = false := by
  intro l
  induction l with
  | nil => intro c cs h; simp [List.dropWhile] at h
  | cons a as ih =>
    intro c cs h
    by_cases hp : p a
    · rw [List.dropWhile_cons_of_pos hp] at h
      exact ih c cs h
    · rw [List.dropWhile_cons_of_neg hp] at h
      cases h
      simpa using hp

/-- `dropWhile` is the identity when the head (if any) fails the predicate. -/
theorem dropWhile_eq_self {α : Type} {p : α → Bool} {l : List α}
    (h : ∀ c, l.head? = some c → p c = false) : l.dropWhile p = l := by
  cases l with
  | nil => rfl
  | cons a as =>
    have := h a rfl
    rw [List.dropWhile_cons_of_neg (by simp [this])]

/-- `dropWhile` is idempotent. -/
theorem dropWhile_idem {α : Type} {p : α → Bool} (l : List α) :
    (l.dropWhile p).dropWhile p = l.dropWhile p := by
  apply dropWhile_eq_self
  intro c hc
  cases h : l.dropWhile p with
  | nil => rw [h] at hc; simp at hc
  | cons a as =>
    rw [h] at hc
    simp only [List.head?] at hc
    injection hc with hc1
    subst hc1
    exact dropWhile_head_false l _ _ h

/-- A non-empty `dropWhile` result keeps the last element of the list. -/
theorem getLast?_dropWhile {α : Type} {p : α → Bool} :
    ∀ (l : List α), l.dropWhile p ≠ [] → (l.dropWhile p).getLast? = l.getLast? := by
  intro l
  induction l with
  | nil => intro h; simp [List.dropWhile] at h
  | cons a as ih =>
    intro h
    by_cases hp : p a
    · rw [List.dropWhile_cons_of_pos hp] at h ⊢
      have has : as ≠ [] := by
        intro he; rw [he] at h; simp [List.dropWhile] at h
      rw [ih h]
      cases as with
      | nil => exact absurd rfl has
      | cons b bs => rw [List.getLast?_cons_cons]
    · rw [List.dropWhile_cons_of_neg hp]

/-- `stripChars` is idempotent. -/
theorem stripChars_idem (l : List Char) : stripChars (stripChars l) = stripChars l := by
  unfold stripChars
  by_cases hBe :
      (l.dropWhile Char.isWhitespace).reverse.dropWhile Char.isWhitespace = []
  · rw [hBe]; simp
  · have hhead : ∀ c,
        ((l.dropWhile Char.isWhitespace).reverse.dropWhile
          Char.isWhitespace).reverse.head? = some c → Char.isWhitespace c = false := by
      intro c hc
      rw [List.head?_reverse] at hc
      rw [getLast?_dropWhile _ hBe, List.getLast?_reverse] at hc
      cases hAe : l.dropWhile Char.isWhitespace with
      | nil => rw [hAe] at hc; simp at hc
      | cons a1 as1 =>
        rw [hAe] at hc
        simp only [List.head?] at hc
        injection hc with hc1
        subst hc1
        exact dropWhile_head_false l _ _ hAe
    rw [dropWhile_eq_self hhead, List.reverse_reverse, dropWhile_idem]

/-- `pyStrip` is idempotent: a stripped title strips to itself. -/
theorem pyStrip_idem (s : String) : pyStrip (pyStrip s) = pyStrip s := by
  unfold pyStrip
  exact congrArg String.mk (stripChars_idem s.data)

/-- A filename ending in `.md` is not empty. -/
theorem append_md_ne (s : String) : s ++ ".md" ≠ "" := by
  intro h
  have h2 := congrArg String.data h
  rw [str_data_append] at h2
  have h3 : (".md" : String).data = ['.', 'm', 'd'] := rfl
  rw [h3] at h2
  simp at h2

/-! Claim theorems. -/

/-- C1: on a document with zero qualifying headings the spec promises a
single `content.md` holding the whole body, but the converter performs
no content-file write at all: the placeholder TOC entry makes
`toc_items` non-empty, so the single-file branch is dead code, and the
chapter walk never opens a buffer, dropping the content.  The summary
file still advertises the never-written `content.md`, and the dead
single-file path would have produced exactly what the spec says. -/
theorem C1_no_heading_doc_writes_nothing :
    (parse_document_structure cfgA (docParagraphs doc1)).1 =
      [{ title := "文档内容", filename := "content.md", level := 1 }] ∧
    pipelineWrites cfgA [] doc1 = [] ∧
    fileContent (pipelineWrites cfgA [] doc1) "content.md" = none ∧
    generate_single_markdown_file cfgA [] doc1 = [("content.md", "hello\n\n")] ∧
    generate_summary_md (parse_document_structure cfgA (docParagraphs doc1)).1 =
      "# Summary\n\n* [文档内容](content.md)\n" := by
  refine ⟨by decide, by decide, by decide, by decide, by decide⟩

/-- C2 counterexample: with two qualifying `Notes` headings the file
`Notes.md` is written twice and its final content is the second
section's rendering only — the first section's body `alpha` does not
survive — and the TOC holds two entries, not one. -/
theorem C2_duplicate_title_counterexample :
    pipelineWrites cfgA [] doc2 =
      [("Notes.md", "# Notes\n\nalpha\n\n"), ("Notes.md", "# Notes\n\nbeta\n\n")] ∧
    fileContent (pipelineWrites cfgA [] doc2) "Notes.md" =
      some "# Notes\n\nbeta\n\n" ∧
    ¬ List.IsInfix "alpha".data ("# Notes\n\nbeta\n\n").data ∧
    (parse_document_structure cfgA (docParagraphs doc2)).1.length = 2 := by
  refine ⟨by decide, by decide, by decide, by decide⟩

/-- C3 counterexample: in the `Intro` / `Setup` scenario the files are
`Intro.md` and `Setup.md` (case preserved, no `setup.md`), and the
depth-2 section is seeded with the single-hash line `# Setup`, so no
written content starts with `##`. -/
theorem C3_seed_hash_counterexample :
    pipelineWrites cfgB [] doc3 =
      [("Intro.md", "# Intro\n\n"), ("Setup.md", "# Setup\n\ndone\n\n")] ∧
    fileContent (pipelineWrites cfgB [] doc3) "setup.md" = none ∧
    ((pipelineWrites cfgB [] doc3).all fun kv => !(pyStartsWith kv.2 "##")) = true := by
  refine ⟨by decide, by decide, by decide⟩

/-- C4: a run with bold and italic both set renders as `***text***`
(bold wrapper innermost, italic around it), and the underline wrapper,
when set, is applied last around the result. -/
theorem C4_bold_italic_order (r : Run) (hb : r.bold = true)
    (hi : r.italic = true) (_ht : r.text ≠ "") :
    formatRun r =
      if r.underline then "<u>" ++ ("***" ++ r.text ++ "***") ++ "</u>"
      else "***" ++ r.text ++ "***" := by
  simp only [formatRun, hb, hi, if_true]
  cases hu : r.underline <;> simp [hu, triple_star]

/-- C4 witness: the bold+italic run `"x"` evaluates as claimed. -/
theorem C4_bold_italic_order_witness :
    run4.text ≠ "" ∧ formatRun run4 = "***x***" :=
  ⟨by decide, (C4_bold_italic_order run4 rfl rfl (by decide)).trans (by decide)⟩

/-- C5 counterexample: `rId2` is referenced by the paragraph (as a bare
`a:blip` in a run that also carries a `w:drawing`) and is present in
the asset table, yet no tag is emitted for it — the `elif` skips bare
blips whenever the run has a drawing element — so "exactly one tag per
referenced mapped id" fails. -/
theorem C5_bare_blip_skipped_counterexample :
    emittedRIds "assets" m5 [run5] = ["rId1"] ∧
    "rId2" ∈ run5.bareBlips ∧
    lookupMap m5 "rId2" = some "image_002.png" ∧
    (emittedRIds "assets" m5 [run5]).count "rId2" = 0 ∧
    process_images_in_paragraph "assets" m5 ⟨"Normal", [run5]⟩ "" =
      imageTag "assets" "image_001.png" := by
  refine ⟨by decide, by decide, by decide, by decide, by decide⟩

/-- C6: a non-empty table transcodes to the header line, a separator
line with one `---` cell per header cell, and one line per data row
with internal newlines replaced by `<br>` (data rows only — witnessed
by the second concrete table, whose header keeps its newline). -/
theorem C6_table_transcode (header : List String) (rest : List (List String)) :
    convert_table_to_markdown ⟨header :: rest⟩ =
      String.intercalate "\n"
        (("| " ++ String.intercalate " | " (header.map pyStrip) ++ " |") ::
          ("| " ++ String.intercalate " | "
            (List.replicate (header.map pyStrip).length "---") ++ " |") ::
          rest.map (fun row =>
            "| " ++ String.intercalate " | "
              (row.map (fun c => replaceNewline (pyStrip c))) ++ " |")) ++ "\n\n" ∧
    convert_table_to_markdown ⟨[["A", "B"], ["1", "2"]]⟩ =
      "| A | B |\n| --- | --- |\n| 1 | 2 |\n\n" ∧
    convert_table_to_markdown ⟨[["A\nB"], ["1\n2"]]⟩ =
      "| A\nB |\n| --- |\n| 1<br>2 |\n\n" :=
  ⟨rfl, by decide, by decide⟩

/-- Lookup into an inserted dictionary binding. -/
theorem lookup_mapInsert (m : ImageMap) (k v k2 : String) :
    lookupMap (mapInsert m k v) k2 = if k = k2 then some v else lookupMap m k2 := by
  simp only [lookupMap, mapInsert, List.find?]
  by_cases h : k = k2
  · simp [h]
  · simp [h]

/-- A key that names no related part and is absent from the initial
state never appears in the extraction map. -/
theorem extract_lookup_none :
    ∀ (parts : List (String × RelatedPart)) (st : ExtractState) (k : String),
      lookupMap st.image_map k = none → k ∉ parts.map Prod.fst →
      lookupMap (parts.foldl extractStep st).image_map k = none := by
  intro parts
  induction parts with
  | nil => intro st k h _; simpa using h
  | cons hd tl ih =>
    intro st k h hk
    have hk1 : hd.1 ≠ k := by
      intro he; exact hk (by simp [he])
    have hk2 : k ∉ tl.map Prod.fst := by
      intro hm; exact hk (by simp [hm])
    rw [List.foldl_cons]
    apply ih _ _ _ hk2
    unfold extractStep
    by_cases hc : pyStartsWith hd.2.content_type "image/" = true
    · rw [if_pos hc]
      cases hb : hd.2.blob with
      | ok d => simpa [lookup_mapInsert, hk1] using h
      | error e => exact h
    · rw [if_neg hc]; exact h

/-- C7: filename generation never yields an empty name; an empty or
too-short cleaned slug falls back to `chapter-N.md` with the positive
running counter (which then advances), and otherwise the slug,
truncated to 50 characters when longer, gets `.md` appended with the
counter untouched. -/
theorem C7_filename_fallback (title : String) (level n : Nat) (_hn : 1 ≤ n) :
    (generate_filename title level n).1 ≠ "" ∧
    ((clean_title_of title = "" ∨ (clean_title_of title).length < 2) →
      ("chapter-" ++ toString n).length ≤ 50 →
      generate_filename title level n = ("chapter-" ++ toString n ++ ".md", n + 1)) ∧
    ((clean_title_of title ≠ "" ∧ 2 ≤ (clean_title_of title).length) →
      generate_filename title level n =
        ((if (clean_title_of title).length > 50 then strTake (clean_title_of title) 50
          else clean_title_of title) ++ ".md", n)) := by
  refine ⟨?_, ?_, ?_⟩
  · simp only [generate_filename]
    exact append_md_ne _
  · intro hc hlen
    simp only [generate_filename, if_pos hc]
    rw [if_neg (by omega : ¬ ("chapter-" ++ toString n).length > 50)]
  · intro hc
    have hcn : ¬ (clean_title_of title = "" ∨ (clean_title_of title).length < 2) := by
      push_neg
      exact ⟨hc.1, hc.2⟩
    simp only [generate_filename, if_neg hcn]

/-- C7 witness: the all-invalid title `!!!` yields `chapter-1.md`. -/
theorem C7_filename_fallback_witness :
    (1 : Nat) ≤ 1 ∧ clean_title_of "!!!" = "" ∧
    generate_filename "!!!" 1 1 = ("chapter-1.md", 2) := by
  refine ⟨by decide, by decide, ?_⟩
  have h := (C7_filename_fallback "!!!" 1 1 (by decide)).2.1
    (Or.inl (by decide)) (by decide)
  exact h.trans (by decide)

/-- C9: a related part whose media type is an image but whose
extraction body fails contributes nothing — the whole extraction state
equals that of the run without the part (so every other image keeps its
entry and filename) — a non-image part likewise contributes nothing,
and the failing part's relationship id gains no asset-table entry. -/
theorem C9_failed_image_skipped (pre post : List (String × RelatedPart))
    (rid rid2 msg : String) (bad np : RelatedPart)
    (hbad : bad.blob = Except.error msg)
    (himg : pyStartsWith bad.content_type "image/" = true)
    (hni : pyStartsWith np.content_type "image/" = false) :
    extract_all_images (pre ++ (rid, bad) :: post) = extract_all_images (pre ++ post) ∧
    extract_all_images (pre ++ (rid2, np) :: post) = extract_all_images (pre ++ post) ∧
    (rid ∉ (pre ++ post).map Prod.fst →
      lookupMap (extract_all_images (pre ++ (rid, bad) :: post)).image_map rid = none) := by
  have hstep : ∀ st : ExtractState, extractStep st (rid, bad) = st := by
    intro st
    unfold extractStep
    rw [if_pos himg]
    simp [hbad]
  have hstep2 : ∀ st : ExtractState, extractStep st (rid2, np) = st := by
    intro st
    unfold extractStep
    rw [if_neg (by simp [hni])]
  have heq : extract_all_images (pre ++ (rid, bad) :: post) =
      extract_all_images (pre ++ post) := by
    unfold extract_all_images
    rw [List.foldl_append, List.foldl_append, List.foldl_cons, hstep]
  refine ⟨heq, ?_, ?_⟩
  · unfold extract_all_images
    rw [List.foldl_append, List.foldl_append, List.foldl_cons, hstep2]
  · intro hrid
    rw [heq]
    exact extract_lookup_none (pre ++ post) ⟨[], 1⟩ rid rfl hrid

/-- C9 witness: with a failing jpeg between a png and a gif, extraction
equals the two-part run and the failing id gets no entry. -/
theorem C9_failed_image_skipped_witness :
    badPartB.blob = Except.error "boom" ∧
    pyStartsWith badPartB.content_type "image/" = true ∧
    pyStartsWith nonImagePart.content_type "image/" = false ∧
    extract_all_images ([("a", goodPartA)] ++ ("b", badPartB) :: [("c", goodPartC)]) =
      extract_all_images ([("a", goodPartA)] ++ [("c", goodPartC)]) ∧
    lookupMap (extract_all_images
      ([("a", goodPartA)] ++ ("b", badPartB) :: [("c", goodPartC)])).image_map "b" =
      none := by
  refine ⟨rfl, by decide, by decide, ?_, ?_⟩
  · exact (C9_failed_image_skipped [("a", goodPartA)] [("c", goodPartC)]
      "b" "z" "boom" badPartB nonImagePart rfl (by decide) (by decide)).1
  · exact (C9_failed_image_skipped [("a", goodPartA)] [("c", goodPartC)]
      "b" "z" "boom" badPartB nonImagePart rfl (by decide) (by decide)).2.2
      (by decide)

/-- C10: a paragraph whose text strips to empty is rendered through the
empty-text branch — a lone newline, or the paragraph's mapped image
tags followed by a newline — never as a Markdown heading line even when
its style is a heading style, and the TOC pass ignores it. -/
theorem C10_blank_paragraph (cfg : GitBookConfig) (m : ImageMap) (p : Paragraph)
    (h : pyStrip p.text = "") :
    convert_paragraph_to_markdown cfg m p =
      (if pyStrip (process_images_in_paragraph cfg.assets_dir m p "") ≠ ""
       then process_images_in_paragraph cfg.assets_dir m p "" ++ "\n" else "\n") ∧
    (∀ st, parseStep cfg st p = st) := by
  constructor
  · simp only [convert_paragraph_to_markdown, h, if_pos]
  · intro st
    simp [parseStep, h]

/-- C10 witness: the whitespace-only `Heading 1` paragraph renders as a
lone newline and adds no TOC entry. -/
theorem C10_blank_paragraph_witness :
    pyStrip p10.text = "" ∧
    convert_paragraph_to_markdown cfgA [] p10 = "\n" ∧
    parseStep cfgA ([], 1) p10 = ([], 1) := by
  refine ⟨by decide, ?_, ?_⟩
  · exact ((C10_blank_paragraph cfgA [] p10 (by decide)).1).trans (by decide)
  · exact (C10_blank_paragraph cfgA [] p10 (by decide)).2 ([], 1)

/-- `parseStep` appends to the accumulated TOC independently of the
accumulator's contents. -/
theorem parseStep_acc (cfg : GitBookConfig) (st : List TocItem × Nat)
    (p : Paragraph) :
    parseStep cfg st p =
      (st.1 ++ (parseStep cfg ([], st.2) p).1, (parseStep cfg ([], st.2) p).2) := by
  by_cases h1 : pyStartsWith p.style "Heading"
  · by_cases h2 : extract_heading_level p.style ≤ cfg.max_toc_level
    · by_cases h3 : pyStrip p.text = ""
      · simp [parseStep, h1, h2, h3]
      · simp [parseStep, h1, h2, h3]
    · simp [parseStep, h1, h2]
  · simp [parseStep, h1]

/-- Folding `parseStep` from an arbitrary state appends to the initial
accumulator what the fold from the empty accumulator produces. -/
theorem parse_fold_acc (cfg : GitBookConfig) :
    ∀ (l : List Paragraph) (st : List TocItem × Nat),
      l.foldl (parseStep cfg) st =
        (st.1 ++ (l.foldl (parseStep cfg) ([], st.2)).1,
          (l.foldl (parseStep cfg) ([], st.2)).2) := by
  intro l
  induction l with
  | nil => intro st; simp
  | cons p rest ih =>
    intro st
    rw [List.foldl_cons, List.foldl_cons, ih (parseStep cfg st p),
      ih (parseStep cfg ([], st.2) p), parseStep_acc cfg st p]
    simp [List.append_assoc]

/-- Every TOC entry produced by one `parseStep` has a qualifying depth
and a non-empty, already-stripped title. -/
theorem parseStep_entry_inv (cfg : GitBookConfig) (n : Nat) (p : Paragraph)
    (i : TocItem) (h : i ∈ (parseStep cfg ([], n) p).1) :
    i.level ≤ cfg.max_toc_level ∧ pyStrip i.title = i.title ∧ i.title ≠ "" := by
  by_cases h1 : pyStartsWith p.style "Heading"
  · by_cases h2 : extract_heading_level p.style ≤ cfg.max_toc_level
    · by_cases h3 : pyStrip p.text = ""
      · simp [parseStep, h1, h2, h3] at h
      · simp only [parseStep, h1, h2, h3, if_pos, if_true, ne_eq,
          not_false_eq_true, List.nil_append, List.mem_singleton] at h
        subst h
        exact ⟨h2, pyStrip_idem _, h3⟩
    · simp [parseStep, h1, h2] at h
  · simp [parseStep, h1] at h

/-- Every TOC entry produced by the heading pass has a qualifying depth
and a non-empty, already-stripped title. -/
theorem parse_entries_inv (cfg : GitBookConfig) :
    ∀ (l : List Paragraph) (n : Nat) (i : TocItem),
      i ∈ (l.foldl (parseStep cfg) ([], n)).1 →
      i.level ≤ cfg.max_toc_level ∧ pyStrip i.title = i.title ∧ i.title ≠ "" := by
  intro l
  induction l with
  | nil => intro n i h; simp at h
  | cons p rest ih =>
    intro n i hmem
    rw [List.foldl_cons, parse_fold_acc cfg rest (parseStep cfg ([], n) p)] at hmem
    rcases List.mem_append.mp hmem with hl | hr
    · exact parseStep_entry_inv cfg n p i hl
    · exact ih _ i hr

/-- One `parseStep` either adds nothing or exactly one entry titled
with the paragraph's stripped text. -/
theorem parseStep_shape (cfg : GitBookConfig) (n : Nat) (p : Paragraph) :
    (parseStep cfg ([], n) p).1 = [] ∨
    ∃ fn lv, (parseStep cfg ([], n) p).1 = [⟨pyStrip p.text, fn, lv⟩] := by
  by_cases h1 : pyStartsWith p.style "Heading"
  · by_cases h2 : extract_heading_level p.style ≤ cfg.max_toc_level
    · by_cases h3 : pyStrip p.text = ""
      · left; simp [parseStep, h1, h2, h3]
      · right
        refine ⟨(generate_filename (pyStrip p.text) (extract_heading_level p.style) n).1,
          extract_heading_level p.style, ?_⟩
        simp [parseStep, h1, h2, h3]
    · left; simp [parseStep, h1, h2]
  · left; simp [parseStep, h1]

/-- The heading-pass TOC titles are, in order, a subsequence of the
stripped paragraph texts: entries appear in document order. -/
theorem parse_titles_sublist (cfg : GitBookConfig) :
    ∀ (l : List Paragraph) (n : Nat),
      List.Sublist ((l.foldl (parseStep cfg) ([], n)).1.map TocItem.title)
        (l.map (fun p => pyStrip p.text)) := by
  intro l
  induction l with
  | nil => intro n; simp
  | cons p rest ih =>
    intro n
    rw [List.foldl_cons, List.map_cons,
      parse_fold_acc cfg rest (parseStep cfg ([], n) p), List.map_append]
    rcases parseStep_shape cfg n p with hd | ⟨fn, lv, hd⟩
    · rw [hd]
      simp only [List.map_nil, List.nil_append]
      exact List.Sublist.cons _ (ih _)
    · rw [hd]
      simp only [List.map_cons, List.map_nil, List.singleton_append]
      exact List.Sublist.cons₂ _ (ih _)

/-- C8: after the TOC pass every entry — the synthesized placeholder
included, given `max_toc_level ≥ 1` — has depth at most the configured
maximum and a non-empty title equal to its own stripped form, and the
heading-pass titles appear in document order (a subsequence of the
stripped paragraph texts). -/
theorem C8_toc_invariants (cfg : GitBookConfig) (paras : List Paragraph)
    (h : 1 ≤ cfg.max_toc_level) :
    (∀ i ∈ (parse_document_structure cfg paras).1,
      i.level ≤ cfg.max_toc_level ∧ pyStrip i.title = i.title ∧ i.title ≠ "") ∧
    List.Sublist ((paras.foldl (parseStep cfg) ([], 1)).1.map TocItem.title)
      (paras.map (fun p => pyStrip p.text)) := by
  constructor
  · intro i hi
    simp only [parse_document_structure] at hi
    by_cases he : (paras.foldl (parseStep cfg) ([], 1)).1 = []
    · rw [if_pos he] at hi
      simp only [List.mem_singleton] at hi
      subst hi
      exact ⟨h, by decide, by decide⟩
    · rw [if_neg he] at hi
      exact parse_entries_inv cfg paras 1 i hi
  · exact parse_titles_sublist cfg paras 1

/-- C8 witness: the two-paragraph document with one `T1` heading. -/
theorem C8_toc_invariants_witness :
    1 ≤ cfgA.max_toc_level ∧
    (parse_document_structure cfgA parasW).1 = [⟨"T1", "T1.md", 1⟩] ∧
    ((⟨"T1", "T1.md", 1⟩ : TocItem).level ≤ cfgA.max_toc_level ∧
      pyStrip (⟨"T1", "T1.md", 1⟩ : TocItem).title = (⟨"T1", "T1.md", 1⟩ : TocItem).title ∧
      (⟨"T1", "T1.md", 1⟩ : TocItem).title ≠ "") ∧
    List.Sublist ((parasW.foldl (parseStep cfgA) ([], 1)).1.map TocItem.title)
      (parasW.map (fun p => pyStrip p.text)) := by
  refine ⟨by decide, by decide, ?_, ?_⟩
  · exact (C8_toc_invariants cfgA parasW (by decide)).1 ⟨"T1", "T1.md", 1⟩ (by decide)
  · exact (C8_toc_invariants cfgA parasW (by decide)).2

/-- A body element failing `headingMatch` only appends its rendering
to the open buffer. -/
theorem chapterStep_nonmatch (cfg : GitBookConfig) (m : ImageMap)
    (t2t : List (String × TocItem)) (st : SegState) (e : BodyElement)
    (h : headingMatch cfg t2t e = false) :
    chapterStep cfg m t2t st e =
      { st with content := st.content ++ [renderElem cfg m e] } := by
  cases e with
  | table t => rfl
  | para p =>
    by_cases h1 : pyStartsWith p.style "Heading"
    · have h2 : ¬ (extract_heading_level p.style ≤ cfg.max_toc_level ∧
          pyStrip p.text ≠ "" ∧ (dictLookup t2t (pyStrip p.text)).isSome) := by
        intro hc
        rcases hc with ⟨ha, hb, hcc⟩
        simp [headingMatch, h1, ha, hb, hcc] at h
      simp [chapterStep, h1, h2, renderElem]
    · simp [chapterStep, h1, renderElem]

/-- A matched heading flushes the open buffer and reopens a buffer
seeded with the single-hash heading line. -/
theorem chapterStep_matched (cfg : GitBookConfig) (m : ImageMap)
    (t2t : List (String × TocItem)) (st : SegState) (p : Paragraph)
    (h1 : pyStartsWith p.style "Heading" = true)
    (h2 : extract_heading_level p.style ≤ cfg.max_toc_level)
    (h3 : pyStrip p.text ≠ "")
    (h4 : (dictLookup t2t (pyStrip p.text)).isSome = true) :
    chapterStep cfg m t2t st (.para p) =
      { current := dictLookup t2t (pyStrip p.text)
      , content := ["# " ++ pyStrip p.text ++ "\n\n"]
      , writes := flushIfOpen st } := by
  simp [chapterStep, h1, h2, h3, h4]

/-- Folding the segmentation step over non-matching elements appends
their renderings to the open buffer and writes nothing. -/
theorem chapter_fold_nonmatch (cfg : GitBookConfig) (m : ImageMap)
    (t2t : List (String × TocItem)) :
    ∀ (l : List BodyElement) (st : SegState),
      (∀ e ∈ l, headingMatch cfg t2t e = false) →
      l.foldl (chapterStep cfg m t2t) st =
        { st with content := st.content ++ l.map (renderElem cfg m) } := by
  intro l
  induction l with
  | nil => intro st h; simp
  | cons e rest ih =>
    intro st h
    rw [List.foldl_cons, chapterStep_nonmatch cfg m t2t st e (h e (by simp)),
      ih _ (fun x hx => h x (by simp [hx]))]
    simp

/-- C2 (amended): when the only matched headings are two occurrences of
the same title, segmentation writes that title's file twice — once with
the first section's seeded buffer, once with the second's — and the
truncating second write wins: the final file content is the second
section's heading line and body only, not a concatenation. -/
theorem C2_duplicate_title_overwrites (cfg : GitBookConfig) (m : ImageMap)
    (toc : List TocItem) (p : Paragraph) (item : TocItem)
    (mid1 mid2 : List BodyElement)
    (h1 : pyStartsWith p.style "Heading" = true)
    (h2 : extract_heading_level p.style ≤ cfg.max_toc_level)
    (h3 : pyStrip p.text ≠ "")
    (h4 : dictLookup (toc.map fun i => (i.title, i)) (pyStrip p.text) = some item)
    (hm1 : ∀ e ∈ mid1, headingMatch cfg (toc.map fun i => (i.title, i)) e = false)
    (hm2 : ∀ e ∈ mid2, headingMatch cfg (toc.map fun i => (i.title, i)) e = false) :
    generate_chapter_files cfg m toc (.para p :: (mid1 ++ .para p :: mid2)) =
      [(item.filename, String.join (("# " ++ pyStrip p.text ++ "\n\n") ::
          mid1.map (renderElem cfg m))),
       (item.filename, String.join (("# " ++ pyStrip p.text ++ "\n\n") ::
          mid2.map (renderElem cfg m)))] ∧
    fileContent
        (generate_chapter_files cfg m toc (.para p :: (mid1 ++ .para p :: mid2)))
        item.filename =
      some (String.join (("# " ++ pyStrip p.text ++ "\n\n") ::
        mid2.map (renderElem cfg m))) := by
  have hiso : (dictLookup (toc.map fun i => (i.title, i)) (pyStrip p.text)).isSome
      = true := by
    rw [h4]; rfl
  have s1 : chapterStep cfg m (toc.map fun i => (i.title, i)) ⟨none, [], []⟩
      (.para p) = ⟨some item, ["# " ++ pyStrip p.text ++ "\n\n"], []⟩ := by
    rw [chapterStep_matched cfg m _ _ p h1 h2 h3 hiso, h4]
    rfl
  have s2 : List.foldl (chapterStep cfg m (toc.map fun i => (i.title, i)))
      ⟨some item, ["# " ++ pyStrip p.text ++ "\n\n"], []⟩ mid1 =
      ⟨some item, ["# " ++ pyStrip p.text ++ "\n\n"] ++ mid1.map (renderElem cfg m),
        []⟩ :=
    chapter_fold_nonmatch cfg m _ mid1 _ hm1
  have s3 : chapterStep cfg m (toc.map fun i => (i.title, i))
      ⟨some item, ["# " ++ pyStrip p.text ++ "\n\n"] ++ mid1.map (renderElem cfg m),
        []⟩ (.para p) =
      ⟨some item, ["# " ++ pyStrip p.text ++ "\n\n"],
        [(item.filename, String.join (("# " ++ pyStrip p.text ++ "\n\n") ::
          mid1.map (renderElem cfg m)))]⟩ := by
    rw [chapterStep_matched cfg m _ _ p h1 h2 h3 hiso, h4]
    simp [flushIfOpen]
  have s4 : List.foldl (chapterStep cfg m (toc.map fun i => (i.title, i)))
      ⟨some item, ["# " ++ pyStrip p.text ++ "\n\n"],
        [(item.filename, String.join (("# " ++ pyStrip p.text ++ "\n\n") ::
          mid1.map (renderElem cfg m)))]⟩ mid2 =
      ⟨some item, ["# " ++ pyStrip p.text ++ "\n\n"] ++ mid2.map (renderElem cfg m),
        [(item.filename, String.join (("# " ++ pyStrip p.text ++ "\n\n") ::
          mid1.map (renderElem cfg m)))]⟩ :=
    chapter_fold_nonmatch cfg m _ mid2 _ hm2
  have hw : generate_chapter_files cfg m toc (.para p :: (mid1 ++ .para p :: mid2)) =
      [(item.filename, String.join (("# " ++ pyStrip p.text ++ "\n\n") ::
          mid1.map (renderElem cfg m))),
       (item.filename, String.join (("# " ++ pyStrip p.text ++ "\n\n") ::
          mid2.map (renderElem cfg m)))] := by
    simp only [generate_chapter_files]
    rw [List.foldl_cons, s1, List.foldl_append, s2, List.foldl_cons, s3, s4]
    simp [flushIfOpen]
  refine ⟨hw, ?_⟩
  rw [hw]
  simp [fileContent]

/-- C2 witness: the concrete duplicated-`Notes` document. -/
theorem C2_duplicate_title_overwrites_witness :
    dictLookup (tocN.map fun i => (i.title, i)) (pyStrip pNotes.text) = some itemN ∧
    headingMatch cfgA (tocN.map fun i => (i.title, i)) (.para pAlpha) = false ∧
    headingMatch cfgA (tocN.map fun i => (i.title, i)) (.para pBeta) = false ∧
    generate_chapter_files cfgA [] tocN
        (.para pNotes :: ([.para pAlpha] ++ .para pNotes :: [.para pBeta])) =
      [(itemN.filename, String.join (("# " ++ pyStrip pNotes.text ++ "\n\n") ::
          [BodyElement.para pAlpha].map (renderElem cfgA []))),
       (itemN.filename, String.join (("# " ++ pyStrip pNotes.text ++ "\n\n") ::
          [BodyElement.para pBeta].map (renderElem cfgA [])))] ∧
    fileContent
        (generate_chapter_files cfgA [] tocN
          (.para pNotes :: ([.para pAlpha] ++ .para pNotes :: [.para pBeta])))
        itemN.filename =
      some (String.join (("# " ++ pyStrip pNotes.text ++ "\n\n") ::
        [BodyElement.para pBeta].map (renderElem cfgA []))) := by
  refine ⟨by decide, by decide, by decide, ?_, ?_⟩
  · exact (C2_duplicate_title_overwrites cfgA [] tocN pNotes itemN
      [.para pAlpha] [.para pBeta] (by decide) (by decide) (by decide) (by decide)
      (by decide) (by decide)).1
  · exact (C2_duplicate_title_overwrites cfgA [] tocN pNotes itemN
      [.para pAlpha] [.para pBeta] (by decide) (by decide) (by decide) (by decide)
      (by decide) (by decide)).2

/-- C3 (amended): a matched qualifying heading seeds the new section
buffer with a single-hash Markdown heading line `# title` and a blank
line regardless of the heading's depth, under the matched TOC entry;
filenames keep the title's case, so the concrete scenario yields
`Intro.md` and `Setup.md` with `Setup.md` starting `# Setup` followed
by `done`. -/
theorem C3_seed_single_hash (cfg : GitBookConfig) (m : ImageMap)
    (toc : List TocItem) (p : Paragraph) (item : TocItem) (st : SegState)
    (h1 : pyStartsWith p.style "Heading" = true)
    (h2 : extract_heading_level p.style ≤ cfg.max_toc_level)
    (h3 : pyStrip p.text ≠ "")
    (h4 : dictLookup (toc.map fun i => (i.title, i)) (pyStrip p.text) = some item) :
    (chapterStep cfg m (toc.map fun i => (i.title, i)) st (.para p)).content =
      ["# " ++ pyStrip p.text ++ "\n\n"] ∧
    (chapterStep cfg m (toc.map fun i => (i.title, i)) st (.para p)).current =
      some item ∧
    pipelineWrites cfgB [] doc3 =
      [("Intro.md", "# Intro\n\n"), ("Setup.md", "# Setup\n\ndone\n\n")] := by
  have hiso : (dictLookup (toc.map fun i => (i.title, i)) (pyStrip p.text)).isSome
      = true := by
    rw [h4]; rfl
  refine ⟨?_, ?_, by decide⟩
  · rw [chapterStep_matched cfg m _ st p h1 h2 h3 hiso]
  · rw [chapterStep_matched cfg m _ st p h1 h2 h3 hiso]
    exact h4

/-- C3 witness: the depth-2 `Setup` heading of the concrete scenario. -/
theorem C3_seed_single_hash_witness :
    pyStartsWith pSetup.style "Heading" = true ∧
    extract_heading_level pSetup.style ≤ cfgB.max_toc_level ∧
    dictLookup (toc3.map fun i => (i.title, i)) (pyStrip pSetup.text) = some item3 ∧
    (chapterStep cfgB [] (toc3.map fun i => (i.title, i)) ⟨none, [], []⟩
      (.para pSetup)).content = ["# Setup\n\n"] ∧
    pipelineWrites cfgB [] doc3 =
      [("Intro.md", "# Intro\n\n"), ("Setup.md", "# Setup\n\ndone\n\n")] := by
  refine ⟨by decide, by decide, by decide, ?_, ?_⟩
  · exact ((C3_seed_single_hash cfgB [] toc3 pSetup item3 ⟨none, [], []⟩
      (by decide) (by decide) (by decide) (by decide)).1).trans (by decide)
  · exact (C3_seed_single_hash cfgB [] toc3 pSetup item3 ⟨none, [], []⟩
      (by decide) (by decide) (by decide) (by decide)).2.2

/-- One blip step keeps the processed list duplicate-free. -/
theorem blipStep_nodup (ad : String) (m : ImageMap) (st : String × List String)
    (rId : String) (h : st.2.Nodup) : ((blipStep ad m st rId).2).Nodup := by
  by_cases he : rId = ""
  · simpa [blipStep, he] using h
  · cases hl : lookupMap m rId with
    | none => simpa [blipStep, he, hl] using h
    | some fn =>
      by_cases hm : rId ∈ st.2
      · simpa [blipStep, he, hl, hm] using h
      · simp only [blipStep, he, hl, hm, ne_eq, not_false_eq_true, if_true,
          if_false, ite_false]
        exact List.Nodup.append h (List.nodup_singleton _)
          (by intro a ha hb; simp at hb; subst hb; exact hm ha)

/-- One blip step preserves membership in the processed list. -/
theorem blipStep_mem (ad : String) (m : ImageMap) (st : String × List String)
    (rId x : String) (h : x ∈ st.2) : x ∈ (blipStep ad m st rId).2 := by
  by_cases he : rId = ""
  · simpa [blipStep, he] using h
  · cases hl : lookupMap m rId with
    | none => simpa [blipStep, he, hl] using h
    | some fn =>
      by_cases hm : rId ∈ st.2
      · simpa [blipStep, he, hl, hm] using h
      · simp [blipStep, he, hl, hm, h]

/-- A mapped, non-empty id is in the processed list after its own step. -/
theorem blipStep_insert (ad : String) (m : ImageMap) (st : String × List String)
    (rId : String) (hne : rId ≠ "") (hl : (lookupMap m rId).isSome = true) :
    rId ∈ (blipStep ad m st rId).2 := by
  cases hlk : lookupMap m rId with
  | none => rw [hlk] at hl; simp at hl
  | some fn =>
    by_cases hm : rId ∈ st.2
    · simp [blipStep, hne, hlk, hm]
    · simp [blipStep, hne, hlk, hm]

/-- Anything in the processed list after one blip step was there before
or names a mapped image. -/
theorem blipStep_src (ad : String) (m : ImageMap) (st : String × List String)
    (rId x : String) (h : x ∈ (blipStep ad m st rId).2) :
    x ∈ st.2 ∨ (lookupMap m x).isSome = true := by
  by_cases he : rId = ""
  · left; simpa [blipStep, he] using h
  · cases hl : lookupMap m rId with
    | none => left; simpa [blipStep, he, hl] using h
    | some fn =>
      by_cases hm : rId ∈ st.2
      · left; simpa [blipStep, he, hl, hm] using h
      · have hb : blipStep ad m st rId = (st.1 ++ imageTag ad fn, st.2 ++ [rId]) := by
          simp [blipStep, he, hl, hm]
        rw [hb] at h
        rcases List.mem_append.mp h with hx | hx
        · left; exact hx
        · right
          simp only [List.mem_singleton] at hx
          subst hx
          rw [hl]; rfl

/-- `blipFold` versions of the four blip-step lemmas. -/
theorem blipFold_nodup (ad : String) (m : ImageMap) :
    ∀ (ids : List String) (st : String × List String),
      st.2.Nodup → ((blipFold ad m st ids).2).Nodup := by
  intro ids
  induction ids with
  | nil => intro st h; exact h
  | cons a rest ih =>
    intro st h
    exact ih _ (blipStep_nodup ad m st a h)

theorem blipFold_mem (ad : String) (m : ImageMap) :
    ∀ (ids : List String) (st : String × List String) (x : String),
      x ∈ st.2 → x ∈ (blipFold ad m st ids).2 := by
  intro ids
  induction ids with
  | nil => intro st x h; exact h
  | cons a rest ih =>
    intro st x h
    exact ih _ x (blipStep_mem ad m st a x h)

theorem blipFold_insert (ad : String) (m : ImageMap) :
    ∀ (ids : List String) (st : String × List String) (rId : String),
      rId ∈ ids → rId ≠ "" → (lookupMap m rId).isSome = true →
      rId ∈ (blipFold ad m st ids).2 := by
  intro ids
  induction ids with
  | nil => intro st rId h; simp at h
  | cons a rest ih =>
    intro st rId hmem hne hl
    rcases List.mem_cons.mp hmem with heq | htail
    · subst heq
      exact blipFold_mem ad m rest _ rId (blipStep_insert ad m st rId hne hl)
    · exact ih _ rId htail hne hl

theorem blipFold_src (ad : String) (m : ImageMap) :
    ∀ (ids : List String) (st : String × List String) (x : String),
      x ∈ (blipFold ad m st ids).2 → x ∈ st.2 ∨ (lookupMap m x).isSome = true := by
  intro ids
  induction ids with
  | nil => intro st x h; left; exact h
  | cons a rest ih =>
    intro st x h
    rcases ih _ x h with hx | hx
    · exact blipStep_src ad m st a x hx
    · right; exact hx

/-- Container-list (`w:drawing` / `w:pict`) versions of the lemmas. -/
theorem bfFold_nodup (ad : String) (m : ImageMap) :
    ∀ (idss : List (List String)) (st : String × List String),
      st.2.Nodup → ((idss.foldl (blipFold ad m) st).2).Nodup := by
  intro idss
  induction idss with
  | nil => intro st h; exact h
  | cons a rest ih =>
    intro st h
    exact ih _ (blipFold_nodup ad m a st h)

theorem bfFold_mem (ad : String) (m : ImageMap) :
    ∀ (idss : List (List String)) (st : String × List String) (x : String),
      x ∈ st.2 → x ∈ ((idss.foldl (blipFold ad m) st)).2 := by
  intro idss
  induction idss with
  | nil => intro st x h; exact h
  | cons a rest ih =>
    intro st x h
    exact ih _ x (blipFold_mem ad m a st x h)

theorem bfFold_insert (ad : String) (m : ImageMap) :
    ∀ (idss : List (List String)) (st : String × List String) (rId : String),
      (∃ ids ∈ idss, rId ∈ ids) → rId ≠ "" → (lookupMap m rId).isSome = true →
      rId ∈ ((idss.foldl (blipFold ad m) st)).2 := by
  intro idss
  induction idss with
  | nil => intro st rId h; simp at h
  | cons a rest ih =>
    intro st rId hmem hne hl
    rcases hmem with ⟨ids, hids, hrid⟩
    rcases List.mem_cons.mp hids with heq | htail
    · subst heq
      exact bfFold_mem ad m rest _ rId (blipFold_insert ad m ids st rId hrid hne hl)
    · exact ih _ rId ⟨ids, htail, hrid⟩ hne hl

theorem bfFold_src (ad : String) (m : ImageMap) :
    ∀ (idss : List (List String)) (st : String × List String) (x : String),
      x ∈ ((idss.foldl (blipFold ad m) st)).2 →
      x ∈ st.2 ∨ (lookupMap m x).isSome = true := by
  intro idss
  induction idss with
  | nil => intro st x h; left; exact h
  | cons a rest ih =>
    intro st x h
    rcases ih _ x h with hx | hx
    · exact blipFold_src ad m a st x hx
    · right; exact hx

/-- One run's image step keeps the processed list duplicate-free. -/
theorem runStep_nodup (ad : String) (m : ImageMap) (st : String × List String)
    (r : Run) (h : st.2.Nodup) : ((runImagesStep ad m st r).2).Nodup := by
  simp only [runImagesStep]
  split
  · apply bfFold_nodup
    split
    · exact bfFold_nodup ad m _ _ h
    · split
      · exact blipFold_nodup ad m _ _ h
      · exact h
  · split
    · exact bfFold_nodup ad m _ _ h
    · split
      · exact blipFold_nodup ad m _ _ h
      · exact h

/-- One run's image step preserves membership in the processed list. -/
theorem runStep_mem (ad : String) (m : ImageMap) (st : String × List String)
    (r : Run) (x : String) (h : x ∈ st.2) : x ∈ (runImagesStep ad m st r).2 := by
  simp only [runImagesStep]
  split
  · apply bfFold_mem
    split
    · exact bfFold_mem ad m _ _ x h
    · split
      · exact blipFold_mem ad m _ _ x h
      · exact h
  · split
    · exact bfFold_mem ad m _ _ x h
    · split
      · exact blipFold_mem ad m _ _ x h
      · exact h

/-- A mapped, non-empty id referenced via a `w:pict` of the run is in
the processed list after the run's step. -/
theorem runStep_pict_insert (ad : String) (m : ImageMap)
    (st : String × List String) (r : Run) (rId : String)
    (hp : ∃ pict ∈ r.picts, rId ∈ pict) (hne : rId ≠ "")
    (hl : (lookupMap m rId).isSome = true) :
    rId ∈ (runImagesStep ad m st r).2 := by
  have hpne : r.picts ≠ [] := by
    rcases hp with ⟨pict, hpm, _⟩
    exact List.ne_nil_of_mem hpm
  simp only [runImagesStep]
  rw [if_pos hpne]
  exact bfFold_insert ad m r.picts _ rId hp hne hl

/-- Anything processed by one run's step was processed before or names
a mapped image. -/
theorem runStep_src (ad : String) (m : ImageMap) (st : String × List String)
    (r : Run) (x : String) (h : x ∈ (runImagesStep ad m st r).2) :
    x ∈ st.2 ∨ (lookupMap m x).isSome = true := by
  simp only [runImagesStep] at h
  have aux : ∀ st1 : String × List String,
      x ∈ ((if r.drawings ≠ [] then r.drawings.foldl (blipFold ad m) st1
            else if r.bareBlips ≠ [] then blipFold ad m st1 r.bareBlips
            else st1)).2 → x ∈ st1.2 ∨ (lookupMap m x).isSome = true := by
    intro st1 hx
    split at hx
    · exact bfFold_src ad m _ st1 x hx
    · split at hx
      · exact blipFold_src ad m _ st1 x hx
      · left; exact hx
  split at h
  · rcases bfFold_src ad m r.picts _ x h with hx | hx
    · exact aux st hx
    · right; exact hx
  · exact aux st h

/-- Whole-paragraph versions of the three properties. -/
theorem runsFold_nodup (ad : String) (m : ImageMap) :
    ∀ (runs : List Run) (st : String × List String),
      st.2.Nodup → ((runs.foldl (runImagesStep ad m) st).2).Nodup := by
  intro runs
  induction runs with
  | nil => intro st h; exact h
  | cons r rest ih =>
    intro st h
    exact ih _ (runStep_nodup ad m st r h)

theorem runsFold_mem (ad : String) (m : ImageMap) :
    ∀ (runs : List Run) (st : String × List String) (x : String),
      x ∈ st.2 → x ∈ ((runs.foldl (runImagesStep ad m) st)).2 := by
  intro runs
  induction runs with
  | nil => intro st x h; exact h
  | cons r rest ih =>
    intro st x h
    exact ih _ x (runStep_mem ad m st r x h)

theorem runsFold_pict_insert (ad : String) (m : ImageMap) :
    ∀ (runs : List Run) (st : String × List String) (rId : String),
      (∃ r ∈ runs, ∃ pict ∈ r.picts, rId ∈ pict) → rId ≠ "" →
      (lookupMap m rId).isSome = true →
      rId ∈ ((runs.foldl (runImagesStep ad m) st)).2 := by
  intro runs
  induction runs with
  | nil => intro st rId h; simp at h
  | cons r rest ih =>
    intro st rId hmem hne hl
    rcases hmem with ⟨r0, hr0, hpict⟩
    rcases List.mem_cons.mp hr0 with heq | htail
    · subst heq
      exact runsFold_mem ad m rest _ rId
        (runStep_pict_insert ad m st r0 rId hpict hne hl)
    · exact ih _ rId ⟨r0, htail, hpict⟩ hne hl

theorem runsFold_src (ad : String) (m : ImageMap) :
    ∀ (runs : List Run) (st : String × List String) (x : String),
      x ∈ ((runs.foldl (runImagesStep ad m) st)).2 →
      x ∈ st.2 ∨ (lookupMap m x).isSome = true := by
  intro runs
  induction runs with
  | nil => intro st x h; left; exact h
  | cons r rest ih =>
    intro st x h
    rcases ih _ x h with hx | hx
    · exact runStep_src ad m st r x hx
    · right; exact hx

/-- C5 (amended): within one paragraph each image relationship id gets
at most one tag (never two — the per-paragraph processed set
de-duplicates), every tagged id names an asset-table entry, and an id
in the asset table that some run references through a legacy `w:pict`
element is tagged exactly once; but an id referenced only as a bare
`a:blip` inside a run that also carries a `w:drawing` element is
skipped (zero tags), so "exactly one" does not hold for every
embedding combination. -/
theorem C5_image_dedup (ad : String) (m : ImageMap) (runs : List Run)
    (rId : String) :
    (emittedRIds ad m runs).count rId ≤ 1 ∧
    (rId ∈ emittedRIds ad m runs → (lookupMap m rId).isSome = true) ∧
    (rId ≠ "" → (lookupMap m rId).isSome = true →
      (∃ r ∈ runs, ∃ pict ∈ r.picts, rId ∈ pict) →
      rId ∈ emittedRIds ad m runs) := by
  refine ⟨?_, ?_, ?_⟩
  · have hnd : (emittedRIds ad m runs).Nodup :=
      runsFold_nodup ad m runs ("", []) (by simp)
    exact List.nodup_iff_count_le_one.mp hnd rId
  · intro hmem
    rcases runsFold_src ad m runs ("", []) rId hmem with h | h
    · simp at h
    · exact h
  · intro hne hl hex
    exact runsFold_pict_insert ad m runs ("", []) rId hex hne hl

/-- C5 witness: a pict-referenced, mapped id is tagged exactly once. -/
theorem C5_image_dedup_witness :
    ("r1" : String) ≠ "" ∧ (lookupMap mW "r1").isSome = true ∧
    (emittedRIds "assets" mW [runW]).count "r1" ≤ 1 ∧
    "r1" ∈ emittedRIds "assets" mW [runW] := by
  refine ⟨by decide, by decide, ?_, ?_⟩
  · exact (C5_image_dedup "assets" mW [runW] "r1").1
  · exact (C5_image_dedup "assets" mW [runW] "r1").2.2 (by decide) (by decide)
      (by decide)

end WordToGitbook
